import Mathlib

/-!
Verification of the GPUParallel dispatcher (gpuparallel/gpuparallel.py).

The Python module is a bounded worker-pool dispatcher.  We embed it shallowly:

* a task is a function of the worker identity returning either a Python value
  (modelled as `Option α`, with `none` standing for Python `None`) or an
  exception (modelled as a `String` message);
* `_run_task` becomes `run_task`, returning the updated result queue, the log
  lines emitted, and the exception re-raised (if any);
* the identity enumeration loop of `GPUParallel.__init__` becomes `identities`;
* `_call_sync` (debug mode) becomes `call_sync`, the semantics of fully
  draining the debug generator;
* `_call_async` becomes `submit_all`/`call_async`, parametrised by the
  nondeterministic worker assignment and completion order of the scheduler;
* `__call__` becomes `gpu_call_async_mode`, with Python generator one-shot
  semantics captured by `Gen`;
* the lifecycle of `__init__`/`__call__`/`__del__` (worker spawning, identity
  queue population, `init_fn` invocations, pool creation and teardown) is
  embedded as an event trace (`constructTrace`, `callTrace`, `delTrace`,
  `lifetimeTrace`).
-/

namespace GPUParallel

/-- A task, as accepted by `GPUParallel.__call__`: a callable receiving
`worker_id` and `gpu_id` and returning a Python value (`Option α`, where
`none` is Python `None`) or raising an exception (`Except.error`). -/
abbrev Task (α : Type) := Nat → Nat → Except String (Option α)

/-- Outcome of one `_run_task` execution inside a worker: the state of the
result queue after the call, the error-log lines emitted, and the exception
propagating out of `_run_task` (always `none` when `ignore_errors` is true). -/
structure RunResult (α : Type) where
  queue : List (Option α)
  logged : List String
  raised : Option String
  deriving DecidableEq

/-- Embedding of `_run_task(func, result_queue, ignore_errors)` executed by the
worker whose globals are `worker_id = wid`, `gpu_id = gid`.  On success the
result is put on the queue; on failure the traceback is logged, `None` is put
on the queue, and the exception is re-raised iff `ignore_errors` is false.
The queue `put` happens before the re-raise in the source, so the queue update
is unconditional. -/
def run_task {α : Type} (wid gid : Nat) (t : Task α) (q : List (Option α))
    (ignore_errors : Bool) : RunResult α :=
  match t wid gid with
  | Except.ok r => ⟨q ++ [r], [], none⟩
  | Except.error e => ⟨q ++ [none], [e], if ignore_errors then none else some e⟩

/-- The single value that `_run_task` appends to the result queue for task `t`
run by worker `(wid, gid)`: the task result on success, `None` on failure. -/
def taskOutput {α : Type} (wid gid : Nat) (t : Task α) : Option α :=
  match t wid gid with
  | Except.ok r => r
  | Except.error _ => none

/-- The identity tuples `(worker_id, gpu_id)` put on `gpu_queue` by the nested
loops of `GPUParallel.__init__`: for each `gpu_id` in `range(n_gpu)` and each
`idx` in `range(n_workers_per_gpu)`, the tuple
`(gpu_id * n_workers_per_gpu + idx, gpu_id)`. -/
def identities (n_gpu n_workers_per_gpu : Nat) : List (Nat × Nat) :=
  (List.range n_gpu).flatMap fun gpu_id =>
    (List.range n_workers_per_gpu).map fun idx =>
      (gpu_id * n_workers_per_gpu + idx, gpu_id)

/-- Task used for an out-of-range index in the scheduling model; never reached
when the completion order is a permutation of the submitted indices. -/
def default_task {α : Type} : Task α := fun _ _ => Except.error "IndexError"

/-- A task that always raises the exception `e`. -/
def failing_task {α : Type} (e : String) : Task α := fun _ _ => Except.error e

/-- A task that always succeeds returning Python `None`. -/
def none_task {α : Type} : Task α := fun _ _ => Except.ok none

/-- The contents of `result_queue` after every submitted task has been executed
by `_run_task`.  `assign i` is the identity of the worker that ran task `i`
and `order` is the completion order — both chosen by the scheduler, about
which the code assumes nothing. -/
def submit_all {α : Type} (tasks : List (Task α)) (assign : Nat → Nat × Nat)
    (order : List Nat) (ignore_errors : Bool) : List (Option α) :=
  order.foldl
    (fun q i =>
      (run_task (assign i).1 (assign i).2 (tasks.getD i default_task) q ignore_errors).queue)
    []

/-- Embedding of draining `_call_async(tasks)`: all tasks are submitted (the
dispatcher counts `n_tasks` while iterating), then exactly `n_tasks` items are
taken from the result queue. -/
def call_async {α : Type} (tasks : List (Task α)) (assign : Nat → Nat × Nat)
    (order : List Nat) (ignore_errors : Bool) : List (Option α) :=
  (submit_all tasks assign order ignore_errors).take tasks.length

/-- Embedding of draining `_call_sync(tasks)` (debug mode): each task is
invoked inline with `worker_id=0, gpu_id=0`, in order; the first exception
propagates to the caller and discards the iteration. -/
def call_sync {α : Type} (tasks : List (Task α)) : Except String (List (Option α)) :=
  match tasks with
  | [] => Except.ok []
  | t :: ts =>
    match t 0 0 with
    | Except.ok r => (call_sync ts).map (fun l => r :: l)
    | Except.error e => Except.error e

/-- Debug-mode branch of `__call__` with `return_generator=False`: the
`ignore_errors` flag is accepted (it is a field of the constructed object) but
`_call_sync` never reads it. -/
def dispatch_sync {α : Type} (_ignore_errors : Bool) (tasks : List (Task α)) :
    Except String (List (Option α)) :=
  call_sync tasks

/-- A Python generator over values of type `β`: the items it will still yield.
Consuming it hands out those items and leaves it exhausted. -/
structure Gen (β : Type) where
  items : List β
  deriving DecidableEq

/-- Iterating a generator to the end: yields all remaining items and leaves
the generator exhausted (a second iteration starts from the returned state). -/
def Gen.drain {β : Type} (g : Gen β) : List β × Gen β :=
  (g.items, ⟨[]⟩)

/-- Embedding of `__call__` in async mode: builds the `_call_async` generator
and either returns it as-is (`return_generator=True`) or fully drains it into
a list before returning. -/
def gpu_call_async_mode {α : Type} (return_generator : Bool) (tasks : List (Task α))
    (assign : Nat → Nat × Nat) (order : List Nat) (ignore_errors : Bool) :
    List (Option α) ⊕ Gen (Option α) :=
  let g : Gen (Option α) := ⟨call_async tasks assign order ignore_errors⟩
  if return_generator then Sum.inr g else Sum.inl (Gen.drain g).1

/-- Observable lifecycle events of one `GPUParallel` object: putting an
identity tuple on `gpu_queue`, creating the `Pool`, spawning one worker
process, running `init_fn` inside a worker (or inline in debug mode),
submitting one task from `__call__`, and tearing the pool down in `__del__`. -/
inductive Event where
  | identityEnqueue (wid gid : Nat)
  | poolCreate
  | workerStart (wid gid : Nat)
  | initCall (wid gid : Nat)
  | taskSubmit
  | poolDestroy
  deriving DecidableEq

/-- Whether an event is an invocation of the user's `init_fn`. -/
def Event.isInitCall : Event → Bool
  | Event.initCall _ _ => true
  | _ => false

/-- Whether an event is the creation of the multiprocessing pool. -/
def Event.isPoolCreate : Event → Bool
  | Event.poolCreate => true
  | _ => false

/-- Whether an event is the spawning of a worker process. -/
def Event.isWorkerStart : Event → Bool
  | Event.workerStart _ _ => true
  | _ => false

/-- Whether an event puts an identity tuple on `gpu_queue`. -/
def Event.isIdentityEnqueue : Event → Bool
  | Event.identityEnqueue _ _ => true
  | _ => false

/-- Whether an event is the pool teardown performed by `__del__`. -/
def Event.isPoolDestroy : Event → Bool
  | Event.poolDestroy => true
  | _ => false

/-- The identity carried by a `workerStart` event, if any. -/
def Event.workerStartId : Event → Option (Nat × Nat)
  | Event.workerStart wid gid => some (wid, gid)
  | _ => none

/-- Startup of one worker process with the identity it claimed from
`gpu_queue` (`_init_worker`): the worker starts, then calls `init_fn` with its
claimed `worker_id` and `gpu_id` when an `init_fn` was supplied. -/
def workerTrace (has_init_fn : Bool) (p : Nat × Nat) : List Event :=
  Event.workerStart p.1 p.2 ::
    (if has_init_fn then [Event.initCall p.1 p.2] else [])

/-- Events of `GPUParallel.__init__`.  With `n_gpu = 0` (debug mode) no queue
is populated, no pool is created and no worker is spawned; `init_fn` is called
inline with `worker_id=0, gpu_id=0` when present.  Otherwise all identities
are put on `gpu_queue`, the pool is created, and each of the
`n_gpu * n_workers_per_gpu` workers claims one identity from the queue
(`claim_order` lists the queue positions in the nondeterministic order in
which workers get served) and initializes with that identity. -/
def constructTrace (n_gpu n_workers_per_gpu : Nat) (has_init_fn : Bool)
    (claim_order : List Nat) : List Event :=
  if n_gpu = 0 then
    if has_init_fn then [Event.initCall 0 0] else []
  else
    ((identities n_gpu n_workers_per_gpu).map fun p => Event.identityEnqueue p.1 p.2)
      ++ [Event.poolCreate]
      ++ (claim_order.map fun k =>
            (identities n_gpu n_workers_per_gpu).getD k (0, 0)).flatMap
          (workerTrace has_init_fn)

/-- Lifecycle events of one `__call__` invocation with `n` tasks: tasks are
submitted to the already-running pool; no worker is re-initialized, no pool is
created or destroyed. -/
def callTrace (n : Nat) : List Event :=
  List.replicate n Event.taskSubmit

/-- Events of `GPUParallel.__del__`: the pool is closed and joined, except in
debug mode where there is no pool. -/
def delTrace (n_gpu : Nat) : List Event :=
  if n_gpu = 0 then [] else [Event.poolDestroy]

/-- Full lifecycle of one `GPUParallel` object: construction, then any number
of `__call__` invocations (`calls` gives each invocation's task count), then
destruction. -/
def lifetimeTrace (n_gpu n_workers_per_gpu : Nat) (has_init_fn : Bool)
    (claim_order : List Nat) (calls : List Nat) : List Event :=
  constructTrace n_gpu n_workers_per_gpu has_init_fn claim_order
    ++ (calls.map callTrace).flatten
    ++ delTrace n_gpu

/-- Whatever the outcome of the task, `_run_task` appends exactly one element
to the result queue, namely `taskOutput`. -/
theorem run_task_queue {α : Type} (wid gid : Nat) (t : Task α) (q : List (Option α))
    (ig : Bool) : (run_task wid gid t q ig).queue = q ++ [taskOutput wid gid t] := by
  unfold run_task taskOutput
  cases t wid gid <;> rfl

theorem submit_all_foldl {α : Type} (tasks : List (Task α)) (assign : Nat → Nat × Nat)
    (ig : Bool) (order : List Nat) (q : List (Option α)) :
    order.foldl
        (fun q i =>
          (run_task (assign i).1 (assign i).2 (tasks.getD i default_task) q ig).queue)
        q
      = q ++ order.map
          (fun i => taskOutput (assign i).1 (assign i).2 (tasks.getD i default_task)) := by
  induction order generalizing q with
  | nil => simp
  | cons i is ih =>
    rw [List.foldl_cons, ih, run_task_queue]
    simp

/-- The result queue after all submissions holds one `taskOutput` per executed
task, in completion order. -/
theorem submit_all_eq_map {α : Type} (tasks : List (Task α)) (assign : Nat → Nat × Nat)
    (order : List Nat) (ig : Bool) :
    submit_all tasks assign order ig
      = order.map
          (fun i => taskOutput (assign i).1 (assign i).2 (tasks.getD i default_task)) := by
  simpa [submit_all] using submit_all_foldl tasks assign ig order []

/-- C1: in async mode with `suppress_task_errors=true`, for `N` submitted
tasks (any mix of succeeding and failing ones) the drained result collection
has exactly `N` elements — a permutation of the per-task `_run_task` outputs —
and a failing task contributes the empty slot `none` instead of being
dropped. -/
theorem count_preservation {α : Type} (tasks : List (Task α)) (assign : Nat → Nat × Nat)
    (order : List Nat) (h : order.Perm (List.range tasks.length)) :
    (call_async tasks assign order true).length = tasks.length ∧
    (call_async tasks assign order true).Perm
      ((List.range tasks.length).map
        (fun i => taskOutput (assign i).1 (assign i).2 (tasks.getD i default_task))) ∧
    (∀ (wid gid : Nat) (t : Task α) (e : String),
      t wid gid = Except.error e → taskOutput wid gid t = none) := by
  have hlen : order.length = tasks.length := by
    simpa using h.length_eq
  have hq : call_async tasks assign order true
      = order.map
          (fun i => taskOutput (assign i).1 (assign i).2 (tasks.getD i default_task)) := by
    rw [call_async, submit_all_eq_map]
    rw [List.take_of_length_le (by simp [hlen])]
  refine ⟨by simp [hq, hlen], ?_, ?_⟩
  · rw [hq]
    exact h.map _
  · intro wid gid t e ht
    simp [taskOutput, ht]

/-- Witness for C1 at a concrete input: two tasks, the second failing, with
completion order reversed; two results come back and the failing task shows
up as `none`. -/
theorem count_preservation_witness :
    (call_async [fun _ _ => Except.ok (some 7), fun _ _ => Except.error "boom"]
        (fun _ => (0, 0)) [1, 0] true).length = 2 ∧
    (call_async [fun _ _ => Except.ok (some 7), fun _ _ => Except.error "boom"]
        (fun _ => (0, 0)) [1, 0] true).Perm
      ((List.range 2).map
        (fun i => taskOutput 0 0
          ([fun _ _ => Except.ok (some 7), fun _ _ => Except.error "boom"].getD i
            default_task))) ∧
    (∀ (wid gid : Nat) (t : Task Nat) (e : String),
      t wid gid = Except.error e → taskOutput wid gid t = none) := by
  have := count_preservation
    (α := Nat) [fun _ _ => Except.ok (some 7), fun _ _ => Except.error "boom"]
    (fun _ => (0, 0)) [1, 0] (by decide)
  simpa using this

/-- C4: when a task fails inside a worker, `_run_task` logs the failure
detail, publishes the empty slot `none` on the result queue (unconditionally,
hence before any re-raise), and re-raises if and only if `ignore_errors` is
false; with `ignore_errors=true` the execution completes without raising. -/
theorem failing_task_publishes_empty_slot {α : Type} (wid gid : Nat) (t : Task α)
    (q : List (Option α)) (ig : Bool) (e : String) (ht : t wid gid = Except.error e) :
    (run_task wid gid t q ig).logged = [e] ∧
    (run_task wid gid t q ig).queue = q ++ [none] ∧
    ((run_task wid gid t q ig).raised = some e ↔ ig = false) := by
  unfold run_task
  rw [ht]
  refine ⟨rfl, rfl, ?_⟩
  cases ig <;> simp

/-- Witness for C4 at a concrete input: a failing task run with
`ignore_errors=false` has its error logged, the empty slot published, and the
exception re-raised. -/
theorem failing_task_publishes_empty_slot_witness :
    (run_task 0 0 (failing_task "boom") [some 1] false).logged = ["boom"] ∧
    (run_task 0 0 (failing_task "boom") [some 1] false).queue = [some 1, none] ∧
    ((run_task 0 0 (failing_task (α := Nat) "boom") [some 1] false).raised = some "boom"
      ↔ false = false) := by
  have := failing_task_publishes_empty_slot (α := Nat) 0 0 (failing_task "boom")
    [some 1] false "boom" rfl
  simpa using this

/-- C9: the empty slot published for a failed task is the same value `none`
that a task successfully returning Python `None` publishes, so at the public
interface a suppressed failure is indistinguishable from a success that
returned `None`: the worker-side queue updates and the drained dispatch
results coincide for the two tasks. -/
theorem empty_slot_indistinguishable {α : Type} (wid gid : Nat) (q : List (Option α))
    (e : String) (assign : Nat → Nat × Nat) (order : List Nat) (ig : Bool) :
    (run_task wid gid (failing_task e) q true).queue
      = (run_task wid gid (none_task : Task α) q true).queue ∧
    call_async [failing_task e] assign order ig
      = call_async [(none_task : Task α)] assign order ig := by
  constructor
  · rw [run_task_queue, run_task_queue]
    simp [taskOutput, failing_task, none_task]
  · rw [call_async, call_async, submit_all_eq_map, submit_all_eq_map]
    simp only [List.length_singleton]
    congr 1
    refine List.map_congr_left ?_
    intro i _
    cases i with
    | zero => simp [taskOutput, failing_task, none_task]
    | succ n => rfl

/-- C3: in debug mode, when every task succeeds, draining the dispatch yields
exactly the list of task results at the fixed identity `(0, 0)`, in submission
order. -/
theorem debug_determinism {α : Type} (tasks : List (Task α))
    (h : ∀ t ∈ tasks, ∃ v, t 0 0 = Except.ok v) :
    call_sync tasks = Except.ok (tasks.map (taskOutput 0 0)) := by
  induction tasks with
  | nil => rfl
  | cons t ts ih =>
    obtain ⟨v, hv⟩ := h t (by simp)
    have hts := ih (fun u hu => h u (by simp [hu]))
    rw [call_sync, hv, hts]
    simp [Except.map, taskOutput, hv]

/-- Witness for C3 at a concrete input: two succeeding tasks produce their two
results in order. -/
theorem debug_determinism_witness :
    call_sync [fun w g => Except.ok (some (w + g)), fun _ _ => Except.ok (some 5)]
      = Except.ok [some 0, some (5 : Nat)] := by
  have := debug_determinism
    (α := Nat) [fun w g => Except.ok (some (w + g)), fun _ _ => Except.ok (some 5)]
    (by
      intro t ht
      simp only [List.mem_cons, List.not_mem_nil, or_false] at ht
      rcases ht with h | h <;> exact ⟨_, by rw [h]⟩)
  simpa [taskOutput] using this

/-- C7: in debug mode a failing task makes the exception propagate
synchronously to the caller of the dispatch invocation — it is not converted
into an empty slot — and this holds for either value of the
`suppress_task_errors` flag, which the debug path never reads. -/
theorem debug_failure_propagates {α : Type} (pre suf : List (Task α)) (t : Task α)
    (e : String) (ig : Bool) (hpre : ∀ u ∈ pre, ∃ v, u 0 0 = Except.ok v)
    (ht : t 0 0 = Except.error e) :
    dispatch_sync ig (pre ++ t :: suf) = Except.error e := by
  rw [dispatch_sync]
  induction pre with
  | nil =>
    rw [List.nil_append, call_sync, ht]
  | cons u us ih =>
    obtain ⟨v, hv⟩ := hpre u (by simp)
    have hus := ih (fun w hw => hpre w (by simp [hw]))
    rw [List.cons_append, call_sync, hv, hus]
    rfl

/-- Witness for C7 at a concrete input: a failing second task unwinds the
dispatch with its exception, also when `suppress_task_errors` is true. -/
theorem debug_failure_propagates_witness :
    dispatch_sync true
        [fun _ _ => Except.ok (some (1 : Nat)), fun _ _ => Except.error "boom"]
      = Except.error "boom" := by
  exact debug_failure_propagates [fun _ _ => Except.ok (some 1)] []
    (fun _ _ => Except.error "boom") "boom" true
    (by
      intro u hu
      simp only [List.mem_singleton] at hu
      exact ⟨_, by rw [hu]⟩)
    rfl

/-- C6: with lazy mode off, async `__call__` fully drains the result stream
and returns the materialized ordered list; with lazy mode on, it returns the
single-pass stream, and a stream that has been drained once yields zero items
on any further consumption. -/
theorem lazy_single_pass {α : Type} (tasks : List (Task α)) (assign : Nat → Nat × Nat)
    (order : List Nat) (ig : Bool) :
    gpu_call_async_mode false tasks assign order ig
      = Sum.inl (call_async tasks assign order ig) ∧
    gpu_call_async_mode true tasks assign order ig
      = Sum.inr ⟨call_async tasks assign order ig⟩ ∧
    (∀ g : Gen (Option α), (Gen.drain (Gen.drain g).2).1 = []) := by
  exact ⟨rfl, rfl, fun g => rfl⟩

/-- C10: dispatching an empty task iterable returns an empty collection in
every mode: in async mode zero tasks are submitted and collection takes zero
items from the result queue whatever the scheduler does (no blocking); in
debug mode no task is invoked; the lazy stream yields zero items. -/
theorem empty_tasks {α : Type} (assign : Nat → Nat × Nat) (order : List Nat)
    (ig rg : Bool) :
    call_async ([] : List (Task α)) assign order ig = [] ∧
    call_sync ([] : List (Task α)) = Except.ok [] ∧
    gpu_call_async_mode rg ([] : List (Task α)) assign order ig
      = (if rg then Sum.inr ⟨[]⟩ else Sum.inl []) := by
  have h : call_async ([] : List (Task α)) assign order ig = [] := by
    simp [call_async]
  refine ⟨h, rfl, ?_⟩
  rw [gpu_call_async_mode]
  cases rg <;> simp [h, Gen.drain]

theorem identities_length (D S : Nat) : (identities D S).length = D * S := by
  rw [identities, List.length_flatMap]
  have hmap : List.map
      (List.length ∘ fun gpu_id => (List.range S).map fun idx => (gpu_id * S + idx, gpu_id))
      (List.range D) = List.replicate D S := by
    rw [show (List.length ∘ fun gpu_id =>
        (List.range S).map fun idx => (gpu_id * S + idx, gpu_id))
        = Function.const Nat S from funext fun g => by simp [Function.comp]]
    rw [List.map_const, List.length_range]
  rw [hmap, List.sum_replicate, smul_eq_mul]

theorem identities_mem (D S : Nat) (p : Nat × Nat) :
    p ∈ identities D S ↔ ∃ d, d < D ∧ ∃ l, l < S ∧ p = (d * S + l, d) := by
  rw [identities, List.mem_flatMap]
  constructor
  · rintro ⟨g, hg, hp⟩
    rw [List.mem_map] at hp
    obtain ⟨i, hi, rfl⟩ := hp
    exact ⟨g, List.mem_range.mp hg, i, List.mem_range.mp hi, rfl⟩
  · rintro ⟨d, hd, l, hl, rfl⟩
    refine ⟨d, List.mem_range.mpr hd, ?_⟩
    rw [List.mem_map]
    exact ⟨l, List.mem_range.mpr hl, rfl⟩

theorem identities_nodup (D S : Nat) : (identities D S).Nodup := by
  rw [identities, List.nodup_flatMap]
  constructor
  · intro g _
    refine List.Nodup.map ?_ (List.nodup_range S)
    intro a b hab
    simp only [Prod.mk.injEq] at hab
    omega
  · refine List.Pairwise.imp ?_ (List.nodup_range D)
    intro g1 g2 hne x hx1 hx2
    rw [List.mem_map] at hx1 hx2
    obtain ⟨i, _, rfl⟩ := hx1
    obtain ⟨j, _, hx⟩ := hx2
    simp only [Prod.mk.injEq] at hx
    exact hne hx.2.symm

theorem range_map_getD {α : Type} (d : α) :
    ∀ l : List α, (List.range l.length).map (fun k => l.getD k d) = l
  | [] => rfl
  | x :: xs => by
    rw [List.length_cons, List.range_succ_eq_map, List.map_cons, List.map_map]
    have : ((fun k => (x :: xs).getD k d) ∘ Nat.succ) = fun k => xs.getD k d :=
      funext fun k => List.getD_cons_succ
    rw [this, List.getD_cons_zero, range_map_getD d xs]

theorem filterMap_workerTrace (hi : Bool) :
    ∀ l : List (Nat × Nat),
      (l.flatMap (workerTrace hi)).filterMap Event.workerStartId = l
  | [] => rfl
  | p :: ps => by
    rw [List.flatMap_cons, List.filterMap_append, filterMap_workerTrace hi ps]
    cases hi <;> simp [workerTrace, Event.workerStartId]

/-- C2: for `devices = D ≥ 1` and `slots_per_device = S ≥ 1`, construction
enumerates exactly `D * S` identities, without duplicates, with membership
exactly `{(d*S+l, d) : d < D, l < S}` (device-major enumeration); and the
identities claimed by the spawned workers — in whatever order the queue serves
them — are exactly that set, no duplicates, no omissions. -/
theorem identity_completeness (D S : Nat) (hD : 1 ≤ D) (_hS : 1 ≤ S) (hi : Bool)
    (claim_order : List Nat) (hperm : claim_order.Perm (List.range (D * S))) :
    (identities D S).length = D * S ∧
    (identities D S).Nodup ∧
    (∀ p : Nat × Nat, p ∈ identities D S ↔ ∃ d, d < D ∧ ∃ l, l < S ∧ p = (d * S + l, d)) ∧
    ((constructTrace D S hi claim_order).filterMap Event.workerStartId).Perm
      (identities D S) := by
  refine ⟨identities_length D S, identities_nodup D S, identities_mem D S, ?_⟩
  rw [constructTrace, if_neg (by omega)]
  rw [List.filterMap_append, List.filterMap_append, filterMap_workerTrace]
  have h1 : (List.filterMap Event.workerStartId
      ((identities D S).map fun p => Event.identityEnqueue p.1 p.2)) = [] := by
    rw [List.filterMap_eq_nil_iff]
    intro e he
    rw [List.mem_map] at he
    obtain ⟨p, _, rfl⟩ := he
    rfl
  rw [h1, List.nil_append, show List.filterMap Event.workerStartId [Event.poolCreate] = []
      from rfl, List.nil_append]
  have h2 : (claim_order.map fun k => (identities D S).getD k (0, 0)).Perm
      ((List.range (D * S)).map fun k => (identities D S).getD k (0, 0)) :=
    hperm.map _
  refine h2.trans ?_
  rw [show D * S = (identities D S).length from (identities_length D S).symm,
    range_map_getD]

/-- Witness for C2 at a concrete input: `devices=2`, `slots_per_device=3`,
with the six workers claiming queue entries in a scrambled order. -/
theorem identity_completeness_witness :
    (identities 2 3).length = 2 * 3 ∧
    (identities 2 3).Nodup ∧
    (∀ p : Nat × Nat, p ∈ identities 2 3 ↔ ∃ d, d < 2 ∧ ∃ l, l < 3 ∧ p = (d * 3 + l, d)) ∧
    ((constructTrace 2 3 true [5, 0, 3, 1, 4, 2]).filterMap Event.workerStartId).Perm
      (identities 2 3) :=
  identity_completeness 2 3 (by decide) (by decide) true [5, 0, 3, 1, 4, 2] (by decide)

theorem mem_flatMap_workerTrace {hi : Bool} {l : List (Nat × Nat)} {e : Event}
    (he : e ∈ l.flatMap (workerTrace hi)) :
    ∃ a b, e = Event.workerStart a b ∨ e = Event.initCall a b := by
  rw [List.mem_flatMap] at he
  obtain ⟨p, _, hep⟩ := he
  cases hi with
  | false =>
    simp [workerTrace] at hep
    exact ⟨p.1, p.2, Or.inl hep⟩
  | true =>
    simp [workerTrace] at hep
    rcases hep with h | h
    · exact ⟨p.1, p.2, Or.inl h⟩
    · exact ⟨p.1, p.2, Or.inr h⟩

theorem flatMap_workerTrace_countP_init (hi : Bool) (l : List (Nat × Nat)) :
    (l.flatMap (workerTrace hi)).countP Event.isInitCall
      = if hi then l.length else 0 := by
  induction l with
  | nil => simp
  | cons p ps ih =>
    rw [List.flatMap_cons, List.countP_append, ih]
    cases hi with
    | false => simp [workerTrace, List.countP_cons, Event.isInitCall]
    | true =>
      simp [workerTrace, List.countP_cons, Event.isInitCall]
      omega

theorem mem_calls_flatten {calls : List Nat} {e : Event}
    (he : e ∈ (calls.map callTrace).flatten) : e = Event.taskSubmit := by
  rw [List.mem_flatten] at he
  obtain ⟨l, hl, hel⟩ := he
  rw [List.mem_map] at hl
  obtain ⟨n, _, rfl⟩ := hl
  exact List.eq_of_mem_replicate hel

/-- C5: over the whole lifetime of one instance with `devices = D ≥ 1` and an
`init_fn`, `init_fn` runs exactly `D * S` times (once per worker, all at
construction) no matter how many dispatch calls are made, the pool is created
exactly once, and it is torn down exactly once. -/
theorem pool_reuse (D S : Nat) (hD : 1 ≤ D) (claim_order : List Nat)
    (calls : List Nat) (hperm : claim_order.Perm (List.range (D * S))) :
    (lifetimeTrace D S true claim_order calls).countP Event.isInitCall = D * S ∧
    (lifetimeTrace D S true claim_order calls).countP Event.isPoolCreate = 1 ∧
    (lifetimeTrace D S true claim_order calls).countP Event.isPoolDestroy = 1 := by
  have hcallzero : ∀ p : Event → Bool, p Event.taskSubmit = false →
      ((calls.map callTrace).flatten).countP p = 0 := by
    intro p hp
    rw [List.countP_eq_zero]
    intro e he
    rw [mem_calls_flatten he, hp]
    simp
  have henqzero : ∀ p : Event → Bool, (∀ a b, p (Event.identityEnqueue a b) = false) →
      (((identities D S).map fun q => Event.identityEnqueue q.1 q.2).countP p) = 0 := by
    intro p hp
    rw [List.countP_eq_zero]
    intro e he
    rw [List.mem_map] at he
    obtain ⟨q, _, rfl⟩ := he
    simp [hp]
  have hworkzero : ∀ p : Event → Bool, (∀ a b, p (Event.workerStart a b) = false) →
      (∀ a b, p (Event.initCall a b) = false) →
      (((claim_order.map fun k => (identities D S).getD k (0, 0)).flatMap
          (workerTrace true)).countP p) = 0 := by
    intro p hp1 hp2
    rw [List.countP_eq_zero]
    intro e he
    obtain ⟨a, b, h | h⟩ := mem_flatMap_workerTrace he <;> subst h <;> simp [hp1, hp2]
  have hlen : claim_order.length = D * S := by simpa using hperm.length_eq
  rw [lifetimeTrace, constructTrace, if_neg (by omega), delTrace, if_neg (by omega)]
  refine ⟨?_, ?_, ?_⟩
  · rw [List.countP_append, List.countP_append, List.countP_append, List.countP_append,
      flatMap_workerTrace_countP_init, henqzero Event.isInitCall (fun a b => rfl),
      hcallzero Event.isInitCall rfl]
    simp [hlen, List.countP_cons, Event.isInitCall]
  · rw [List.countP_append, List.countP_append, List.countP_append, List.countP_append,
      henqzero Event.isPoolCreate (fun a b => rfl),
      hworkzero Event.isPoolCreate (fun a b => rfl) (fun a b => rfl),
      hcallzero Event.isPoolCreate rfl]
    simp [List.countP_cons, Event.isPoolCreate]
  · rw [List.countP_append, List.countP_append, List.countP_append, List.countP_append,
      henqzero Event.isPoolDestroy (fun a b => rfl),
      hworkzero Event.isPoolDestroy (fun a b => rfl) (fun a b => rfl),
      hcallzero Event.isPoolDestroy rfl]
    simp [List.countP_cons, Event.isPoolDestroy]

/-- Witness for C5 at a concrete input: one device with two slots, three
dispatch calls of sizes 4, 0 and 2; `init_fn` runs twice, the pool is created
once and destroyed once. -/
theorem pool_reuse_witness :
    (lifetimeTrace 1 2 true [1, 0] [4, 0, 2]).countP Event.isInitCall = 1 * 2 ∧
    (lifetimeTrace 1 2 true [1, 0] [4, 0, 2]).countP Event.isPoolCreate = 1 ∧
    (lifetimeTrace 1 2 true [1, 0] [4, 0, 2]).countP Event.isPoolDestroy = 1 :=
  pool_reuse 1 2 (by decide) [1, 0] [4, 0, 2] (by decide)

/-- C8: constructing with `devices = 0` spawns no worker, creates no pool and
populates no identity queue; when an `init_fn` is present it is invoked
immediately, inline, with `worker_id = 0` and `gpu_id = 0` — and when absent,
construction emits no event at all. -/
theorem debug_construction (S : Nat) (claim_order : List Nat) :
    constructTrace 0 S true claim_order = [Event.initCall 0 0] ∧
    constructTrace 0 S false claim_order = [] ∧
    ∀ hi : Bool,
      (constructTrace 0 S hi claim_order).countP Event.isPoolCreate = 0 ∧
      (constructTrace 0 S hi claim_order).countP Event.isWorkerStart = 0 ∧
      (constructTrace 0 S hi claim_order).countP Event.isIdentityEnqueue = 0 := by
  refine ⟨rfl, rfl, ?_⟩
  intro hi
  cases hi <;> simp [constructTrace, List.countP_cons, Event.isPoolCreate,
    Event.isWorkerStart, Event.isIdentityEnqueue]

end GPUParallel
